import Mathlib

/-!
Verification of the WebSocket synchronization hub of go-music-player
(`websocket_sync.go`): the message codec (`json.Unmarshal` into
`WebSocketMessage`, the timestamp fill in `Client.readPump`, `json.Marshal`),
and the `Hub.Run` coordination loop (register, unregister, broadcast fan-out
with slow-consumer eviction).

Modelling conventions:
* `float64` fields (`Position`, `Volume`) are modelled as `ℚ`; Go's JSON
  encoder round-trips every `float64` exactly, and no claim depends on
  floating-point rounding.
* `int64` is modelled as `ℤ`.
* A raw inbound byte payload is modelled by `RawPayload`: either bytes that
  are not valid JSON (`malformed`), a valid JSON value that is not an object
  (`nonObject`), the JSON value `null` (`jnull`, which `json.Unmarshal`
  accepts as a no-op on a struct target), or a flat object whose field values
  are scalars (`JField`).  The Go struct has only scalar fields, so an
  array- or object-valued field would behave like any other wrongly-typed
  scalar; `fbool` stands in for every wrongly-typed value.
* A Go channel of capacity 256 (`Send`) is modelled as a list plus an
  open/closed flag; the non-blocking `select { case ch <- m: default: }`
  succeeds exactly when the buffer holds fewer than `sendCap` items.
-/

namespace MusicSync

/-- `PlayMessage MessageType = "play"` (websocket_sync.go line 19). -/
def PlayMessage : String := "play"

/-- `PauseMessage MessageType = "pause"` (line 20). -/
def PauseMessage : String := "pause"

/-- `SeekMessage MessageType = "seek"` (line 21). -/
def SeekMessage : String := "seek"

/-- `VolumeMessage MessageType = "volume"` (line 22). -/
def VolumeMessage : String := "volume"

/-- `PlaylistMessage MessageType = "playlist"` (line 23). -/
def PlaylistMessage : String := "playlist"

/-- The message-kind constants actually declared in the source
(websocket_sync.go lines 18-24): five values. -/
def codeMessageKinds : List String :=
  [PlayMessage, PauseMessage, SeekMessage, VolumeMessage, PlaylistMessage]

/-- From the spec's words only (used to state the claim about kind
validation): the six enumerated message kinds the spec lists for
`SyncMessage`. -/
def specEnumeratedKinds : List String :=
  ["play", "pause", "seek", "volume-change", "playlist-change", "presence"]

/-- `WebSocketMessage` (websocket_sync.go lines 27-34).  The Go field `Type`
is named `MsgType` here because `Type` is reserved in Lean.  JSON tags:
`type`, `user_id,omitempty`, `song_id,omitempty`, `position,omitempty`,
`volume,omitempty`, `timestamp`. -/
structure WebSocketMessage where
  MsgType : String
  UserID : String
  SongID : String
  Position : ℚ
  Volume : ℚ
  Timestamp : ℤ
deriving DecidableEq

/-- The zero value of `WebSocketMessage`, the state of `var msg
WebSocketMessage` before `json.Unmarshal` fills it. -/
def zeroMessage : WebSocketMessage :=
  { MsgType := "", UserID := "", SongID := "", Position := 0, Volume := 0,
    Timestamp := 0 }

/-- A scalar JSON field value on the wire. -/
inductive JField where
  | fstr (s : String)
  | fnum (q : ℚ)
  | fbool (b : Bool)
  | fnull
deriving DecidableEq

/-- A raw inbound payload as seen by `json.Unmarshal`. -/
inductive RawPayload where
  | malformed
  | nonObject
  | jnull
  | obj (fields : List (String × JField))
deriving DecidableEq

/-- One step of `json.Unmarshal` assigning a decoded JSON object field into
the `WebSocketMessage` struct: a known key must carry a value of the field's
type (`null` is a no-op, a wrong type is an error), an unknown key is
ignored, and a `timestamp` number must be an integer to fit `int64`. -/
def setField (m : WebSocketMessage) : String × JField → Option WebSocketMessage
  | ("type", .fstr s) => some { m with MsgType := s }
  | ("type", .fnull) => some m
  | ("type", _) => none
  | ("user_id", .fstr s) => some { m with UserID := s }
  | ("user_id", .fnull) => some m
  | ("user_id", _) => none
  | ("song_id", .fstr s) => some { m with SongID := s }
  | ("song_id", .fnull) => some m
  | ("song_id", _) => none
  | ("position", .fnum q) => some { m with Position := q }
  | ("position", .fnull) => some m
  | ("position", _) => none
  | ("volume", .fnum q) => some { m with Volume := q }
  | ("volume", .fnull) => some m
  | ("volume", _) => none
  | ("timestamp", .fnum q) =>
      if q.den = 1 then some { m with Timestamp := q.num } else none
  | ("timestamp", .fnull) => some m
  | ("timestamp", _) => none
  | (_, _) => some m

/-- Sequentially assign the object's fields, in order, stopping at the first
type error (later duplicates overwrite earlier ones, as in Go). -/
def unmarshalFields : WebSocketMessage → List (String × JField) → Option WebSocketMessage
  | m, [] => some m
  | m, f :: rest =>
      match setField m f with
      | none => none
      | some m1 => unmarshalFields m1 rest

/-- `json.Unmarshal(message, &msg)` (websocket_sync.go line 104): fails on
bytes that are not valid JSON and on a JSON value that is neither an object
nor `null`; `null` leaves the struct at its zero value. -/
def unmarshalMessage : RawPayload → Option WebSocketMessage
  | .malformed => none
  | .nonObject => none
  | .jnull => some zeroMessage
  | .obj fields => unmarshalFields zeroMessage fields

/-- `if msg.Timestamp == 0 { msg.Timestamp = time.Now().Unix() }`
(websocket_sync.go lines 110-112); `now` is `time.Now().Unix()`. -/
def fillTimestamp (now : ℤ) (m : WebSocketMessage) : WebSocketMessage :=
  if m.Timestamp = 0 then { m with Timestamp := now } else m

/-- The codec's decode path in `Client.readPump` (websocket_sync.go lines
102-112): unmarshal, then fill a zero timestamp with the current time. -/
def decode (now : ℤ) (raw : RawPayload) : Option WebSocketMessage :=
  (unmarshalMessage raw).map (fillTimestamp now)

/-- `json.Marshal(msg)` (websocket_sync.go line 115): emits the struct fields
in declaration order, omitting the `omitempty` fields (`user_id`, `song_id`,
`position`, `volume`) at their zero values; `type` and `timestamp` are always
emitted. -/
def encode (m : WebSocketMessage) : RawPayload :=
  .obj ([("type", .fstr m.MsgType)]
    ++ (if m.UserID = "" then [] else [("user_id", .fstr m.UserID)])
    ++ (if m.SongID = "" then [] else [("song_id", .fstr m.SongID)])
    ++ (if m.Position = 0 then [] else [("position", .fnum m.Position)])
    ++ (if m.Volume = 0 then [] else [("volume", .fnum m.Volume)])
    ++ [("timestamp", .fnum (m.Timestamp : ℚ))])

/-- Capacity of a client's outbound channel: `Send: make(chan []byte, 256)`
(websocket_sync.go line 163). -/
def sendCap : ℕ := 256

/-- The Hub state (websocket_sync.go lines 45-50).  Clients (`*Client`
pointers) are identified by natural numbers.  The key set of the Go map
`Clients map[*Client]bool` is modelled as a duplicate-free list (see
`hubWf`); `queue c` is the buffered content of client `c`'s `Send` channel
and `qopen c` records whether that channel is still open. -/
structure HubState where
  clients : List ℕ
  queue : ℕ → List RawPayload
  qopen : ℕ → Bool

/-- Model well-formedness: a Go map cannot hold the same key twice, so the
client list never holds duplicates. -/
def hubWf (h : HubState) : Prop :=
  h.clients.Nodup

/-- `NewHub` (websocket_sync.go lines 53-60): empty client set.  Channels of
clients not yet registered are kept nominally open and empty. -/
def newHub : HubState :=
  { clients := [], queue := fun _ => [], qopen := fun _ => true }

/-- The `case client := <-h.Register` arm of `Hub.Run` (websocket_sync.go
lines 66-67): `h.Clients[client] = true` — a map assignment adds the key if
absent and changes nothing if the key is already present (its value is
already `true`). -/
def registerStep (h : HubState) (c : ℕ) : HubState :=
  if c ∈ h.clients then h else { h with clients := c :: h.clients }

/-- The `case client := <-h.Unregister` arm of `Hub.Run` (websocket_sync.go
lines 68-72): if present, delete from the map and close the `Send` channel;
otherwise nothing happens. -/
def unregisterStep (h : HubState) (c : ℕ) : HubState :=
  if c ∈ h.clients then
    { clients := h.clients.erase c,
      queue := h.queue,
      qopen := Function.update h.qopen c false }
  else h

/-- The body of the fan-out loop in the `case message := <-h.Broadcast` arm
(websocket_sync.go lines 74-80) for one client: the non-blocking
`select { case client.Send <- message: default: ... }` enqueues when the
channel buffer has room, and otherwise closes the channel and deletes the
client. -/
def broadcastOne (m : RawPayload) (h : HubState) (c : ℕ) : HubState :=
  if (h.queue c).length < sendCap then
    { h with queue := Function.update h.queue c (h.queue c ++ [m]) }
  else
    { clients := h.clients.erase c,
      queue := h.queue,
      qopen := Function.update h.qopen c false }

/-- The whole `case message := <-h.Broadcast` arm of `Hub.Run`
(websocket_sync.go lines 73-81): `for client := range h.Clients` applies
`broadcastOne` once to every client registered when the arm starts.  Go's
map iteration order is unspecified; the model iterates the list in order,
and the theorems below depend only on each client being visited exactly
once. -/
def broadcastStep (h : HubState) (m : RawPayload) : HubState :=
  h.clients.foldl (broadcastOne m) h

/-- The invariant of claim C9: every registered client's channel is open. -/
def hubInv (h : HubState) : Prop :=
  ∀ c ∈ h.clients, h.qopen c = true

/-- A concrete hub with two registered clients, both with empty open
channels.  Client 0 plays the role of the sender P in the counterexamples:
its own `readPump` submitted the broadcast. -/
def hubTwo : HubState :=
  { clients := [0, 1], queue := fun _ => [], qopen := fun _ => true }

/-- A concrete play message with timestamp 3. -/
def playMsg : WebSocketMessage :=
  { zeroMessage with MsgType := "play", Timestamp := 3 }

/-- A concrete play message whose timestamp (1) is far older than the hub
processing time (100) used in the staleness counterexample. -/
def staleMsg : WebSocketMessage :=
  { zeroMessage with MsgType := "play", Timestamp := 1 }

/-- A concrete hub where client 0's outbound channel is saturated with
`sendCap` (256) undelivered items and client 1's channel is empty. -/
def fullHub : HubState :=
  { clients := [0, 1],
    queue := fun c => if c = 0 then List.replicate sendCap .jnull else [],
    qopen := fun _ => true }

lemma broadcastOne_room (m : RawPayload) (h : HubState) (c : ℕ)
    (hroom : (h.queue c).length < sendCap) :
    broadcastOne m h c =
      { h with queue := Function.update h.queue c (h.queue c ++ [m]) } := by
  unfold broadcastOne
  exact if_pos hroom

lemma broadcastOne_full (m : RawPayload) (h : HubState) (c : ℕ)
    (hfull : ¬ (h.queue c).length < sendCap) :
    broadcastOne m h c =
      { clients := h.clients.erase c, queue := h.queue,
        qopen := Function.update h.qopen c false } := by
  unfold broadcastOne
  exact if_neg hfull

lemma broadcastOne_frame (m : RawPayload) (h : HubState) (c x : ℕ) (hx : x ≠ c) :
    (broadcastOne m h c).queue x = h.queue x ∧
    (broadcastOne m h c).qopen x = h.qopen x ∧
    (x ∈ (broadcastOne m h c).clients ↔ x ∈ h.clients) := by
  by_cases hroom : (h.queue c).length < sendCap
  · rw [broadcastOne_room m h c hroom]
    simp [Function.update_noteq hx]
  · rw [broadcastOne_full m h c hroom]
    simp [Function.update_noteq hx, List.mem_erase_of_ne hx]

lemma broadcastOne_nodup (m : RawPayload) (h : HubState) (c : ℕ)
    (hn : h.clients.Nodup) : (broadcastOne m h c).clients.Nodup := by
  by_cases hroom : (h.queue c).length < sendCap
  · rw [broadcastOne_room m h c hroom]
    exact hn
  · rw [broadcastOne_full m h c hroom]
    exact hn.erase c

lemma foldl_broadcastOne_frame (m : RawPayload) (L : List ℕ) (h : HubState)
    (x : ℕ) (hx : x ∉ L) :
    (L.foldl (broadcastOne m) h).queue x = h.queue x ∧
    (L.foldl (broadcastOne m) h).qopen x = h.qopen x ∧
    (x ∈ (L.foldl (broadcastOne m) h).clients ↔ x ∈ h.clients) := by
  induction L generalizing h with
  | nil => exact ⟨rfl, rfl, Iff.rfl⟩
  | cons a L ih =>
      rw [List.mem_cons, not_or] at hx
      obtain ⟨frameQ, frameO, frameM⟩ := broadcastOne_frame m h a x hx.1
      obtain ⟨ihQ, ihO, ihM⟩ := ih (broadcastOne m h a) hx.2
      exact ⟨ihQ.trans frameQ, ihO.trans frameO, ihM.trans frameM⟩

lemma foldl_broadcastOne_nodup (m : RawPayload) (L : List ℕ) (h : HubState)
    (hn : h.clients.Nodup) : (L.foldl (broadcastOne m) h).clients.Nodup := by
  induction L generalizing h with
  | nil => exact hn
  | cons a L ih => exact ih _ (broadcastOne_nodup m h a hn)

/-- What one broadcast arm does at a registered client `c`: if its channel
has room the message is appended and the client is kept; otherwise the
client is evicted, its channel closed, and its queue left as it was. -/
lemma broadcastStep_spec (h : HubState) (m : RawPayload) (c : ℕ)
    (hwf : hubWf h) (hc : c ∈ h.clients) :
    ((h.queue c).length < sendCap →
      (broadcastStep h m).queue c = h.queue c ++ [m] ∧
      (broadcastStep h m).qopen c = h.qopen c ∧
      c ∈ (broadcastStep h m).clients) ∧
    (¬ (h.queue c).length < sendCap →
      (broadcastStep h m).queue c = h.queue c ∧
      (broadcastStep h m).qopen c = false ∧
      c ∉ (broadcastStep h m).clients) := by
  obtain ⟨s, t, hst⟩ := List.append_of_mem hc
  have hnodup : (s ++ c :: t).Nodup := by
    rw [hubWf, hst] at hwf
    exact hwf
  have hsp := List.nodup_append.mp hnodup
  have hcs : c ∉ s := fun hin => hsp.2.2 hin (List.mem_cons_self c t)
  have hct : c ∉ t := (List.nodup_cons.mp hsp.2.1).1
  have hns : (s.foldl (broadcastOne m) h).clients.Nodup :=
    foldl_broadcastOne_nodup m s h hwf
  unfold broadcastStep
  rw [hst, List.foldl_append, List.foldl_cons]
  obtain ⟨fQ, fO, fM⟩ := foldl_broadcastOne_frame m s h c hcs
  constructor
  · intro hroom
    rw [broadcastOne_room m _ c (by rw [fQ]; exact hroom)]
    obtain ⟨gQ, gO, gM⟩ := foldl_broadcastOne_frame m t _ c hct
    refine ⟨?_, ?_, ?_⟩
    · rw [gQ]; simp [Function.update_same, fQ]
    · rw [gO]; exact fO
    · rw [gM]; exact fM.mpr hc
  · intro hfull
    rw [broadcastOne_full m _ c (by rw [fQ]; exact hfull)]
    obtain ⟨gQ, gO, gM⟩ := foldl_broadcastOne_frame m t _ c hct
    refine ⟨?_, ?_, ?_⟩
    · rw [gQ]; exact fQ
    · rw [gO]; simp [Function.update_same]
    · rw [gM]
      intro hin
      exact ((List.Nodup.mem_erase_iff hns).mp hin).1 rfl

/-- A client that is not registered is untouched by a broadcast arm. -/
lemma broadcastStep_not_mem (h : HubState) (m : RawPayload) (c : ℕ)
    (hc : c ∉ h.clients) :
    (broadcastStep h m).queue c = h.queue c ∧
    (broadcastStep h m).qopen c = h.qopen c ∧
    (c ∈ (broadcastStep h m).clients ↔ c ∈ h.clients) :=
  foldl_broadcastOne_frame m _ h c hc

lemma broadcastOne_inv (m : RawPayload) (h : HubState) (c : ℕ)
    (hn : h.clients.Nodup) (hinv : hubInv h) : hubInv (broadcastOne m h c) := by
  by_cases hroom : (h.queue c).length < sendCap
  · rw [broadcastOne_room m h c hroom]
    intro x hx
    exact hinv x hx
  · rw [broadcastOne_full m h c hroom]
    intro x hx
    rw [List.Nodup.mem_erase_iff hn] at hx
    simp only [Function.update_noteq hx.1]
    exact hinv x hx.2

lemma foldl_broadcastOne_inv (m : RawPayload) (L : List ℕ) (h : HubState)
    (hn : h.clients.Nodup) (hinv : hubInv h) :
    hubInv (L.foldl (broadcastOne m) h) := by
  induction L generalizing h with
  | nil => exact hinv
  | cons a L ih =>
      exact ih _ (broadcastOne_nodup m h a hn) (broadcastOne_inv m h a hn hinv)

lemma unregisterStep_mem (h : HubState) (c : ℕ) (hc : c ∈ h.clients) :
    unregisterStep h c =
      { clients := h.clients.erase c, queue := h.queue,
        qopen := Function.update h.qopen c false } := by
  unfold unregisterStep
  exact if_pos hc

lemma unregisterStep_not_mem (h : HubState) (c : ℕ) (hc : c ∉ h.clients) :
    unregisterStep h c = h := by
  unfold unregisterStep
  exact if_neg hc

lemma unmarshal_encode (m : WebSocketMessage) :
    unmarshalMessage (encode m) = some m := by
  obtain ⟨ty, uid, sid, pos, vol, ts⟩ := m
  unfold encode unmarshalMessage
  by_cases hU : uid = "" <;> by_cases hS : sid = "" <;>
    by_cases hP : pos = 0 <;> by_cases hV : vol = 0 <;>
      simp [hU, hS, hP, hV, unmarshalFields, setField, zeroMessage,
        Rat.den_intCast, Rat.num_intCast]

/-- C1 counterexample: the claim says the sender P never receives its own
broadcast back.  In the code the `Broadcast` channel carries only the
marshalled bytes, with no sender identity, and the fan-out loop ranges over
every registered client.  Here client 0 (the sender, registered with room in
its queue) has its own message enqueued to it. -/
theorem hub_echoes_sender_cex :
    0 ∈ hubTwo.clients ∧
    (broadcastStep hubTwo (encode playMsg)).queue 0 = [encode playMsg] := by
  decide

/-- C1 (amended): a broadcast accepted by the Hub is enqueued to every
Connection registered in the active set whose outbound queue has room,
including the sender P itself — the Hub performs no sender exclusion, so P
does receive its own broadcast back. -/
theorem hub_broadcast_includes_sender (h : HubState) (m : RawPayload) (c : ℕ)
    (hwf : hubWf h) (hc : c ∈ h.clients)
    (hroom : (h.queue c).length < sendCap) :
    (broadcastStep h m).queue c = h.queue c ++ [m] ∧
    c ∈ (broadcastStep h m).clients := by
  obtain ⟨hq, _, hmem⟩ := (broadcastStep_spec h m c hwf hc).1 hroom
  exact ⟨hq, hmem⟩

/-- Witness for C1 (amended) at the concrete two-client hub with client 0 as
sender. -/
theorem hub_broadcast_includes_sender_witness :
    (broadcastStep hubTwo (encode playMsg)).queue 0 =
      hubTwo.queue 0 ++ [encode playMsg] ∧
    0 ∈ (broadcastStep hubTwo (encode playMsg)).clients :=
  hub_broadcast_includes_sender hubTwo (encode playMsg) 0
    (by unfold hubWf; decide) (by decide) (by decide)

/-- C2 counterexample: the claim says a message whose age at Hub processing
time exceeds 5 seconds is dropped and never enqueued to any registered peer.
Here a message with timestamp 1, processed at hub time 100 (age 99 seconds),
is still enqueued to registered peer 1. -/
theorem hub_forwards_stale_cex :
    (100 : ℤ) - staleMsg.Timestamp > 5 ∧
    1 ∈ hubTwo.clients ∧
    (broadcastStep hubTwo (encode staleMsg)).queue 1 = [encode staleMsg] := by
  decide

/-- C2 (amended): the Hub applies no freshness check — an inbound message is
fanned out to every registered client with queue room regardless of how much
the hub processing time exceeds its timestamp. -/
theorem hub_has_no_freshness_filter (h : HubState) (msg : WebSocketMessage)
    (now : ℤ) (c : ℕ) (hwf : hubWf h) (_hstale : now - msg.Timestamp > 5)
    (hc : c ∈ h.clients) (hroom : (h.queue c).length < sendCap) :
    (broadcastStep h (encode msg)).queue c = h.queue c ++ [encode msg] :=
  ((broadcastStep_spec h (encode msg) c hwf hc).1 hroom).1

/-- Witness for C2 (amended): the stale message (age 99 seconds) is enqueued
to peer 1. -/
theorem hub_has_no_freshness_filter_witness :
    (broadcastStep hubTwo (encode staleMsg)).queue 1 =
      hubTwo.queue 1 ++ [encode staleMsg] :=
  hub_has_no_freshness_filter hubTwo staleMsg 100 1 (by unfold hubWf; decide)
    (by decide) (by decide) (by decide)

/-- C4: if a registered client's outbound queue is full (at capacity
`sendCap` = 256) when the Hub fans out a message, that client is removed
from the active set and its channel closed in the same broadcast step, its
queue receives nothing, and every other registered client with queue room
still receives its own copy. -/
theorem hub_evicts_saturated_client (h : HubState) (m : RawPayload) (c : ℕ)
    (hwf : hubWf h) (hc : c ∈ h.clients)
    (hfull : sendCap ≤ (h.queue c).length) :
    c ∉ (broadcastStep h m).clients ∧
    (broadcastStep h m).qopen c = false ∧
    (broadcastStep h m).queue c = h.queue c ∧
    ∀ d ∈ h.clients, d ≠ c → (h.queue d).length < sendCap →
      (broadcastStep h m).queue d = h.queue d ++ [m] ∧
      d ∈ (broadcastStep h m).clients := by
  obtain ⟨hq, ho, hmem⟩ := (broadcastStep_spec h m c hwf hc).2 (not_lt.mpr hfull)
  refine ⟨hmem, ho, hq, ?_⟩
  intro d hd hdc hdroom
  obtain ⟨hq2, _, hmem2⟩ := (broadcastStep_spec h m d hwf hd).1 hdroom
  exact ⟨hq2, hmem2⟩

set_option maxRecDepth 8000 in
/-- Witness for C4: in `fullHub`, client 0 holds 256 undelivered items;
broadcasting a 257th message evicts client 0, closes its channel, and still
delivers the message to client 1. -/
theorem hub_evicts_saturated_client_witness :
    0 ∉ (broadcastStep fullHub .jnull).clients ∧
    (broadcastStep fullHub .jnull).qopen 0 = false ∧
    (broadcastStep fullHub .jnull).queue 1 = fullHub.queue 1 ++ [.jnull] ∧
    1 ∈ (broadcastStep fullHub .jnull).clients := by
  obtain ⟨h1, h2, _, h4⟩ :=
    hub_evicts_saturated_client fullHub .jnull 0 (by unfold hubWf; decide)
      (by decide) (by decide)
  obtain ⟨h5, h6⟩ := h4 1 (by decide) (by decide) (by decide)
  exact ⟨h1, h2, h5, h6⟩

/-- C3 counterexample: the claim says decode fails for every raw payload
whose kind is outside the six enumerated values.  The code never inspects
the kind: a well-formed object with kind `garbage` decodes successfully. -/
theorem decode_accepts_unknown_kind_cex :
    "garbage" ∉ specEnumeratedKinds ∧
    decode 1 (.obj [("type", .fstr "garbage"), ("timestamp", .fnum 5)]) =
      some { zeroMessage with MsgType := "garbage", Timestamp := 5 } := by
  decide

/-- C3 (amended): decode fails when the raw payload is not well-formed
structured data (bytes that are not valid JSON, or a JSON value that is
neither an object nor null, or a known field carrying a wrongly-typed
value); the kind field is never validated — a well-typed object decodes
successfully whatever string its kind holds, even though the source declares
only the five constants `play`, `pause`, `seek`, `volume`, `playlist`. -/
theorem decode_fails_only_on_malformed (now : ℤ) :
    decode now .malformed = none ∧
    decode now .nonObject = none ∧
    decode now (.obj [("type", .fbool true)]) = none ∧
    ∀ (kind uid sid : String) (pos vol : ℚ) (ts : ℤ),
      decode now (.obj [("type", .fstr kind), ("user_id", .fstr uid),
          ("song_id", .fstr sid), ("position", .fnum pos),
          ("volume", .fnum vol), ("timestamp", .fnum (ts : ℚ))]) =
        some (fillTimestamp now
          { MsgType := kind, UserID := uid, SongID := sid, Position := pos,
            Volume := vol, Timestamp := ts }) := by
  refine ⟨rfl, rfl, rfl, ?_⟩
  intro kind uid sid pos vol ts
  simp [decode, unmarshalMessage, unmarshalFields, setField, zeroMessage,
    Rat.den_intCast, Rat.num_intCast]

/-- C5: for every message `m` that decode can produce (at a nonzero receipt
time, as `time.Now().Unix()` always is), encoding `m` and decoding the
result gives back `m` in every field, including when the omitempty optional
fields `SongID`, `Position`, `Volume` are zero-valued. -/
theorem decode_encode_roundtrip (now : ℤ) (raw : RawPayload)
    (m : WebSocketMessage) (hdec : decode now raw = some m) (hnow : now ≠ 0) :
    ∀ t2 : ℤ, decode t2 (encode m) = some m := by
  intro t2
  obtain ⟨m0, hm0, hfill⟩ := Option.map_eq_some'.mp hdec
  have hts : m.Timestamp ≠ 0 := by
    rw [← hfill]
    unfold fillTimestamp
    by_cases h0 : m0.Timestamp = 0
    · rw [if_pos h0]
      exact hnow
    · rw [if_neg h0]
      exact h0
  rw [decode, unmarshal_encode]
  show some (fillTimestamp t2 m) = some m
  unfold fillTimestamp
  rw [if_neg hts]

/-- Witness for C5 at a concrete payload: decoding at receipt time 10 yields
a play message whose optional fields are all zero-valued; encoding it and
decoding again (at a different time, 99) returns it unchanged. -/
theorem decode_encode_roundtrip_witness :
    decode 99 (encode { zeroMessage with MsgType := "play", Timestamp := 10 }) =
      some { zeroMessage with MsgType := "play", Timestamp := 10 } :=
  decode_encode_roundtrip 10 (.obj [("type", .fstr "play")])
    { zeroMessage with MsgType := "play", Timestamp := 10 }
    (by decide) (by decide) 99

/-- C6: when the unmarshalled payload's timestamp is zero (or the field was
absent, which leaves the zero value), decode stamps it with the current
wall-clock seconds `now`; a nonzero inbound timestamp is kept unchanged; and
whenever `now` is nonzero every message decode emits carries a nonzero
timestamp. -/
theorem decode_populates_timestamp (now : ℤ) (raw : RawPayload)
    (m : WebSocketMessage) (hm : unmarshalMessage raw = some m) :
    (m.Timestamp = 0 → decode now raw = some { m with Timestamp := now }) ∧
    (m.Timestamp ≠ 0 → decode now raw = some m) ∧
    (now ≠ 0 → ∀ m2, decode now raw = some m2 → m2.Timestamp ≠ 0) := by
  refine ⟨?_, ?_, ?_⟩
  · intro h0
    rw [decode, hm]
    show some (fillTimestamp now m) = some { m with Timestamp := now }
    unfold fillTimestamp
    rw [if_pos h0]
  · intro h0
    rw [decode, hm]
    show some (fillTimestamp now m) = some m
    unfold fillTimestamp
    rw [if_neg h0]
  · intro hnow m2 h2
    rw [decode, hm] at h2
    have h2b : some (fillTimestamp now m) = some m2 := h2
    have h2c := Option.some.inj h2b
    rw [← h2c]
    unfold fillTimestamp
    by_cases h0 : m.Timestamp = 0
    · rw [if_pos h0]
      exact hnow
    · rw [if_neg h0]
      exact h0

/-- Witness for C6: a payload with no timestamp field decodes at receipt
time 42 to a message stamped 42. -/
theorem decode_populates_timestamp_witness :
    decode 42 (.obj [("type", .fstr "play")]) =
      some { zeroMessage with MsgType := "play", Timestamp := 42 } :=
  (decode_populates_timestamp 42 (.obj [("type", .fstr "play")])
    { zeroMessage with MsgType := "play" } (by decide)).1 (by decide)

/-- C7: unregistering a registered Connection removes it from the active set
and closes its channel; unregistering an absent Connection leaves the Hub
state entirely unchanged (a no-op, never an error); the operation is
idempotent; and under the open-channel invariant the unregister path only
ever closes a channel that was still open, so a channel is closed at most
once. -/
theorem hub_unregister_idempotent (h : HubState) (c : ℕ) (hwf : hubWf h) :
    (c ∈ h.clients →
      (unregisterStep h c).clients = h.clients.erase c ∧
      (unregisterStep h c).qopen c = false ∧
      (unregisterStep h c).queue = h.queue) ∧
    (c ∉ h.clients → unregisterStep h c = h) ∧
    unregisterStep (unregisterStep h c) c = unregisterStep h c ∧
    (hubInv h → ∀ x, (unregisterStep h c).qopen x ≠ h.qopen x →
      h.qopen x = true) := by
  by_cases hc : c ∈ h.clients
  · have hstep := unregisterStep_mem h c hc
    refine ⟨fun _ => ?_, fun hn => absurd hc hn, ?_, fun hinv x hx => ?_⟩
    · rw [hstep]
      exact ⟨rfl, by simp [Function.update_same], rfl⟩
    · rw [hstep]
      exact unregisterStep_not_mem _ c
        (fun hin => ((List.Nodup.mem_erase_iff hwf).mp hin).1 rfl)
    · rw [hstep] at hx
      by_cases hxc : x = c
      · rw [hxc]
        exact hinv c hc
      · exact absurd (Function.update_noteq hxc false h.qopen) hx
  · have hstep := unregisterStep_not_mem h c hc
    refine ⟨fun hin => absurd hin hc, fun _ => hstep, ?_, fun hinv x hx => ?_⟩
    · rw [hstep, hstep]
    · rw [hstep] at hx
      exact absurd rfl hx

/-- Witness for C7: in the concrete two-client hub, unregistering registered
client 0 closes its channel, and unregistering absent client 5 is a no-op. -/
theorem hub_unregister_idempotent_witness :
    (unregisterStep hubTwo 0).qopen 0 = false ∧
    unregisterStep hubTwo 5 = hubTwo :=
  ⟨((hub_unregister_idempotent hubTwo 0 (by unfold hubWf; decide)).1
      (by decide)).2.1,
   (hub_unregister_idempotent hubTwo 5 (by unfold hubWf; decide)).2.1
     (by decide)⟩

/-- C9: the open-channel invariant — every Connection in the active set has
an open channel — is preserved by registration (a fresh client arrives with
an open channel, as `ServeWebSocket` always builds one), by unregistration,
and by broadcast fan-out; and a broadcast step only ever enqueues into a
channel that was open before the step. -/
theorem hub_open_queue_invariant (h : HubState) (c : ℕ) (m : RawPayload) :
    (hubInv h → h.qopen c = true → hubInv (registerStep h c)) ∧
    (hubWf h → hubInv h → hubInv (unregisterStep h c)) ∧
    (hubWf h → hubInv h → hubInv (broadcastStep h m)) ∧
    (hubInv h → ∀ x, (broadcastStep h m).queue x ≠ h.queue x →
      h.qopen x = true) := by
  refine ⟨?_, ?_, ?_, ?_⟩
  · intro hinv hopen x hx
    by_cases hc : c ∈ h.clients
    · have hstep : registerStep h c = h := by
        unfold registerStep
        exact if_pos hc
      rw [hstep] at hx ⊢
      exact hinv x hx
    · have hstep : registerStep h c = { h with clients := c :: h.clients } := by
        unfold registerStep
        exact if_neg hc
      rw [hstep] at hx ⊢
      rcases List.mem_cons.mp hx with hxc | hxin
      · rw [hxc]
        exact hopen
      · exact hinv x hxin
  · intro hwf hinv
    by_cases hc : c ∈ h.clients
    · rw [unregisterStep_mem h c hc]
      intro x hx
      rw [List.Nodup.mem_erase_iff hwf] at hx
      show Function.update h.qopen c false x = true
      rw [Function.update_noteq hx.1]
      exact hinv x hx.2
    · rw [unregisterStep_not_mem h c hc]
      exact hinv
  · intro hwf hinv
    exact foldl_broadcastOne_inv m h.clients h hwf hinv
  · intro hinv x hx
    by_cases hxm : x ∈ h.clients
    · exact hinv x hxm
    · exact absurd (broadcastStep_not_mem h m x hxm).1 hx

/-- Witness for C9 at the concrete two-client hub. -/
theorem hub_open_queue_invariant_witness :
    hubInv (registerStep hubTwo 2) ∧ hubInv (unregisterStep hubTwo 0) ∧
    hubInv (broadcastStep hubTwo RawPayload.jnull) := by
  obtain ⟨h1, _, h3, _⟩ := hub_open_queue_invariant hubTwo 2 RawPayload.jnull
  obtain ⟨_, h2, _, _⟩ := hub_open_queue_invariant hubTwo 0 RawPayload.jnull
  exact ⟨h1 (fun c _ => rfl) rfl,
    h2 (by unfold hubWf; decide) (fun c _ => rfl),
    h3 (by unfold hubWf; decide) (fun c _ => rfl)⟩

/-- C10: registering a Connection already in the active set leaves the Hub
state unchanged — the same Connection never appears twice — and registration
never touches any client's queue or channel flag. -/
theorem hub_register_idempotent (h : HubState) (c : ℕ) :
    (registerStep h c).queue = h.queue ∧
    (registerStep h c).qopen = h.qopen ∧
    (hubWf h → hubWf (registerStep h c)) ∧
    (c ∈ h.clients → registerStep h c = h) := by
  by_cases hc : c ∈ h.clients
  · have hstep : registerStep h c = h := by
      unfold registerStep
      exact if_pos hc
    rw [hstep]
    exact ⟨rfl, rfl, fun hwf => hwf, fun _ => rfl⟩
  · have hstep : registerStep h c = { h with clients := c :: h.clients } := by
      unfold registerStep
      exact if_neg hc
    rw [hstep]
    exact ⟨rfl, rfl, fun hwf => List.nodup_cons.mpr ⟨hc, hwf⟩,
      fun hin => absurd hin hc⟩

/-- Witness for C10: re-registering client 0 leaves the concrete hub
unchanged. -/
theorem hub_register_idempotent_witness :
    registerStep hubTwo 0 = hubTwo :=
  (hub_register_idempotent hubTwo 0).2.2.2 (by decide)

end MusicSync
